import Mathlib

/-!
# Verification of the OpusAI clip pipeline and hybrid search

A shallow embedding of the analysis pipeline and the hybrid search/ranking
engine of the `for-the-tower` repository (src/App.tsx,
src/services/geminiService.ts, src/services/videoProcessor.ts), together with
theorems settling the specification claims.

Modelling conventions:
* JavaScript numbers are modelled as `ℚ` (exact rationals; none of the verified
  code depends on floating-point rounding).
* A fallible backend call (`generateContent`, `embedContent`, ffmpeg calls,
  frame capture) is modelled by its outcome: `none` means the call threw,
  `some x` means it returned `x`.  For the Gemini calls the payload is itself
  an `Option` (`some none` = the call returned but carried no text/values).
* React `useState` state is gathered in the record `AppSession`; a handler
  becomes a function from the old session (plus backend outcomes) to the new
  session.  Fields that only drive UI chrome (progress bars, sidebar tab,
  comment analysis) are omitted: no claim mentions them.
* JavaScript string operations (`toLowerCase`, `includes`, `trim`) are modelled
  on the underlying character lists.
-/

/-! ## Strings: JS `toLowerCase`, `includes`, `trim` -/

/-- JS `String.prototype.toLowerCase`, character by character. -/
def toLowerStr (s : String) : String :=
  ⟨s.data.map Char.toLower⟩

/-- Does `hay` start with `needle`?  Helper for the substring test. -/
def startsList : List Char → List Char → Bool
  | [], _ => true
  | _ :: _, [] => false
  | a :: as, b :: bs => a == b && startsList as bs

/-- JS `hay.includes(needle)`: `needle` occurs contiguously in `hay`. -/
def includesList : List Char → List Char → Bool
  | [], needle => needle.isEmpty
  | c :: t, needle => startsList needle (c :: t) || includesList t needle

/-- JS `hay.includes(needle)` on `String`. -/
def strIncludes (hay needle : String) : Bool :=
  includesList hay.data needle.data

/-- JS whitespace for `trim` (the characters relevant to this code base). -/
def isJsSpace (c : Char) : Bool :=
  c == ' ' || c == '\t' || c == '\n' || c == '\r'

/-- JS `String.prototype.trim`. -/
def trimStr (s : String) : String :=
  ⟨((s.data.dropWhile isJsSpace).reverse.dropWhile isJsSpace).reverse⟩

/-! ## Data model (src/types.ts) -/

/-- `VideoClip` from src/types.ts.  `embedding` is optional there
(`embedding?: number[]`); `none` models the property being absent. -/
structure VideoClip where
  id : String
  startTime : ℚ
  endTime : ℚ
  title : String
  summary : String
  viralityScore : ℚ
  reasoning : String
  tags : List String
  transcriptStub : String
  embedding : Option (List ℚ)
deriving DecidableEq

/-- `TranscriptSegment` from src/types.ts. -/
structure TranscriptSegment where
  startTime : ℚ
  endTime : ℚ
  text : String
deriving DecidableEq

/-- A raw clip candidate as parsed from the visual-analysis response
(src/services/geminiService.ts:79): a `VideoClip` before the `id` and
`embedding` fields exist and before the timestamps are clamped. -/
structure RawClip where
  startTime : ℚ
  endTime : ℚ
  title : String
  summary : String
  viralityScore : ℚ
  reasoning : String
  tags : List String
  transcriptStub : String
deriving DecidableEq

/-- The transient `{...clip, score}` objects built inside `handleSearch`
(src/App.tsx:162-190): a clip together with its search score. -/
structure ScoredClip where
  clip : VideoClip
  score : ℚ
deriving DecidableEq

/-- `AppState` from src/types.ts. -/
inductive AppState
  | IDLE
  | PROCESSING
  | ANALYZING
  | READY
  | ERROR
deriving DecidableEq

/-- The `sortOrder` state of src/App.tsx:45: `'time' | 'viral'`. -/
inductive SortOrder
  | time
  | viral
deriving DecidableEq

/-! ## Sorting (src/App.tsx:58-65)

`sortClips` copies the list and sorts it with `Array.prototype.sort`, which
ECMAScript requires to be a stable sort.  A stable sort for a total preorder
has a uniquely determined result, so `List.insertionSort` (stable) is a
faithful model of it.  The same JS function is applied both to plain clips and
to the scored `{...clip, score}` objects (structural typing), hence the
projection-parametrised `sortClipsBy`. -/

/-- `sortClips` generic over the two projections the comparators read. -/
def sortClipsBy {α : Type} (startTimeOf viralityOf : α → ℚ)
    (list : List α) (order : SortOrder) : List α :=
  match order with
  | SortOrder.viral => List.insertionSort (fun a b => viralityOf b ≤ viralityOf a) list
  | SortOrder.time => List.insertionSort (fun a b => startTimeOf a ≤ startTimeOf b) list

/-- `sortClips` (src/App.tsx:58-65) on plain clips. -/
def sortClips (list : List VideoClip) (order : SortOrder) : List VideoClip :=
  sortClipsBy VideoClip.startTime VideoClip.viralityScore list order

/-- `sortClips` applied to the scored objects inside `handleSearch`
(src/App.tsx:197). -/
def sortScored (list : List ScoredClip) (order : SortOrder) : List ScoredClip :=
  sortClipsBy (fun sc => sc.clip.startTime) (fun sc => sc.clip.viralityScore) list order

/-! ## Gemini service (src/services/geminiService.ts) -/

/-- Outcome of one Gemini call: `none` = the call threw; `some none` = it
returned but `result.text` / `result.embedding?.values` was missing;
`some (some x)` = it returned payload `x` (already parsed). -/
abbrev CallOutcome (α : Type) := Option (Option α)

/-- The id `clip-${Date.now()}-${index}` (src/services/geminiService.ts:84);
`now` is the `Date.now()` value of the run. -/
def mkClipId (now index : ℕ) : String :=
  "clip-" ++ toString now ++ "-" ++ toString index

/-- Clamp one raw candidate and attach its id
(src/services/geminiService.ts:82-87): `startTime := Math.max(0, startTime)`,
`endTime := Math.min(videoDuration, endTime)`.  No field `embedding` is set. -/
def clampRawClip (videoDuration : ℚ) (now index : ℕ) (clip : RawClip) : VideoClip :=
  { id := mkClipId now index
    startTime := max 0 clip.startTime
    endTime := min videoDuration clip.endTime
    title := clip.title
    summary := clip.summary
    viralityScore := clip.viralityScore
    reasoning := clip.reasoning
    tags := clip.tags
    transcriptStub := clip.transcriptStub
    embedding := none }

/-- `analyzeVideoFrames` (src/services/geminiService.ts:10-93).  A thrown
backend error is caught, logged and re-thrown (lines 89-92), and a missing
`result.text` throws (line 77), so both yield `none`.  On success every raw
clip is mapped to a clamped clip with an id — there is no filtering. -/
def analyzeVideoFrames (backend : CallOutcome (List RawClip))
    (videoDuration : ℚ) (now : ℕ) : Option (List VideoClip) :=
  match backend with
  | none => none
  | some none => none
  | some (some rawClips) =>
      some (rawClips.enum.map fun p => clampRawClip videoDuration now p.1 p.2)

/-- `generateTranscript` (src/services/geminiService.ts:95-141): a thrown
backend error is caught and yields `[]` (lines 136-140), a missing
`result.text` yields `[]` (line 132); it never throws. -/
def generateTranscript (backend : CallOutcome (List TranscriptSegment)) :
    List TranscriptSegment :=
  match backend with
  | none => []
  | some none => []
  | some (some segments) => segments

/-- `generateEmbedding` (src/services/geminiService.ts:143-159): returns the
backend values when present (line 152), `[]` when the response has no
`embedding.values` (line 154), and `[]` when the call throws (lines 155-158);
it never throws. -/
def generateEmbedding (backend : CallOutcome (List ℚ)) : List ℚ :=
  match backend with
  | none => []
  | some none => []
  | some (some values) => values

/-! ## Frame sampling (src/services/videoProcessor.ts:206-281)

Only the timestamp schedule is modelled (the pixel data of a frame is opaque
to every claim).  The capture loop stops as soon as `currentTime >= duration`
or `frames.length >= maxFrames`; the remaining frame budget is the fuel. -/

/-- The `captureFrame`/`onseeked` loop: emit `currentTime` then advance by
`finalInterval`, while `currentTime < duration` and the budget lasts. -/
def captureFrames (duration finalInterval : ℚ) : ℚ → ℕ → List ℚ
  | _, 0 => []
  | currentTime, fuel + 1 =>
      if currentTime < duration then
        currentTime :: captureFrames duration finalInterval (currentTime + finalInterval) fuel
      else []

/-- The timestamp schedule of `extractFramesFromVideo`
(src/services/videoProcessor.ts:229-266): `neededInterval = duration /
maxFrames`, `finalInterval = max(intervalSeconds, neededInterval)`, then the
capture loop from `currentTime = 0`. -/
def extractFramesFromVideo (duration intervalSeconds : ℚ) (maxFrames : ℕ) : List ℚ :=
  let neededInterval := duration / (maxFrames : ℚ)
  let finalInterval := max intervalSeconds neededInterval
  captureFrames duration finalInterval 0 maxFrames

/-! ## Hybrid search (src/App.tsx:151-214)

`handleSearch` imports `cosineSimilarity` from src/utils/vectorUtils.ts, a
file that is not among the sources; the search model therefore takes the
similarity function `cos` as an explicit parameter, and the spec-determined
facts about it (result `0` on an empty or zero-norm vector) enter theorems as
hypotheses where a claim needs them. -/

/-- The base score of one clip (src/App.tsx:162-165):
`clip.embedding ? cosineSimilarity(queryEmbedding, clip.embedding) : 0`.
(An empty array is truthy in JS, so `some []` still calls `cos`.) -/
def cosBase (cos : List ℚ → List ℚ → ℚ) (queryEmbedding : List ℚ)
    (clip : VideoClip) : ℚ :=
  match clip.embedding with
  | some e => cos queryEmbedding e
  | none => 0

/-- Step 1 of `handleSearch`: `clips.map(clip => ({...clip, score}))`. -/
def baseStage (cos : List ℚ → List ℚ → ℚ) (queryEmbedding : List ℚ)
    (clips : List VideoClip) : List ScoredClip :=
  clips.map fun clip => ⟨clip, cosBase cos queryEmbedding clip⟩

/-- `seg.text.toLowerCase().includes(queryLower)` (src/App.tsx:171-173). -/
def segMatches (queryLower : String) (seg : TranscriptSegment) : Bool :=
  strIncludes (toLowerStr seg.text) queryLower

/-- `matchingTranscriptSegments` (src/App.tsx:171-173). -/
def matchingTranscriptSegments (queryLower : String)
    (transcript : List TranscriptSegment) : List TranscriptSegment :=
  transcript.filter (segMatches queryLower)

/-- The temporal-overlap test of src/App.tsx:178-180, with the source's
half-open/closed boundaries kept exactly. -/
def segOverlaps (clip : VideoClip) (seg : TranscriptSegment) : Bool :=
  (decide (seg.startTime ≥ clip.startTime) && decide (seg.startTime < clip.endTime)) ||
  (decide (seg.endTime > clip.startTime) && decide (seg.endTime ≤ clip.endTime)) ||
  (decide (clip.startTime ≥ seg.startTime) && decide (clip.endTime ≤ seg.endTime))

/-- `clip.transcriptStub.toLowerCase().includes(queryLower)`
(src/App.tsx:184, re-evaluated at line 194). -/
def stubMatches (queryLower : String) (clip : VideoClip) : Bool :=
  strIncludes (toLowerStr clip.transcriptStub) queryLower

/-- Step 2 of `handleSearch` (src/App.tsx:176-190): add the fixed `0.5` boost
once when some matching transcript segment overlaps the clip or the clip's own
stub matches. -/
def boostStage (queryLower : String) (transcript : List TranscriptSegment)
    (scored : List ScoredClip) : List ScoredClip :=
  scored.map fun clip =>
    let hasTranscriptMatch :=
      (matchingTranscriptSegments queryLower transcript).any (segOverlaps clip.clip)
    let hasStubMatch := stubMatches queryLower clip.clip
    if hasTranscriptMatch || hasStubMatch then ⟨clip.clip, clip.score + 1/2⟩ else clip

/-- `const threshold = 0.3` (src/App.tsx:193). -/
def threshold : ℚ := 3/10

/-- Step 3 of `handleSearch` (src/App.tsx:194): keep a clip when
`c.score > threshold || c.transcriptStub.toLowerCase().includes(queryLower)`. -/
def filterStage (queryLower : String) (scored : List ScoredClip) : List ScoredClip :=
  scored.filter fun c => decide (c.score > threshold) || stubMatches queryLower c.clip

/-- The per-clip result of steps 1-2 combined (pointwise form of
`baseStage` followed by `boostStage`). -/
def scoreClip (cos : List ℚ → List ℚ → ℚ) (queryEmbedding : List ℚ)
    (queryLower : String) (transcript : List TranscriptSegment)
    (clip : VideoClip) : ScoredClip :=
  let base := cosBase cos queryEmbedding clip
  if (matchingTranscriptSegments queryLower transcript).any (segOverlaps clip) ||
      stubMatches queryLower clip then
    ⟨clip, base + 1/2⟩
  else
    ⟨clip, base⟩

/-- The whole non-empty-query body of `handleSearch` (src/App.tsx:158-199):
score, boost, filter, re-sort. -/
def searchRanked (cos : List ℚ → List ℚ → ℚ) (queryEmbedding : List ℚ)
    (searchQuery : String) (clips : List VideoClip)
    (transcript : List TranscriptSegment) (order : SortOrder) : List ScoredClip :=
  let queryLower := toLowerStr searchQuery
  sortScored
    (filterStage queryLower
      (boostStage queryLower transcript (baseStage cos queryEmbedding clips)))
    order

/-! ## Session state and handlers (src/App.tsx) -/

/-- The `useState` state of `App` that the claims are about.  `filteredClips`
holds what `setFilteredClips` stored; the transient `score` property that the
stored JS objects may carry is not part of the `VideoClip` type (exactly as in
src/types.ts) and is invisible to every consumer, so the model stores the
clip component. -/
structure AppSession where
  appState : AppState
  clips : List VideoClip
  activeClip : Option VideoClip
  transcript : List TranscriptSegment
  filteredClips : List VideoClip
  searchQuery : String
  sortOrder : SortOrder
deriving DecidableEq

/-- `handleSearch` (src/App.tsx:151-214) as a session transformer.  The
query-embedding call `generateEmbedding` absorbs every backend failure and
returns a vector, and the rest of the `try` body is total, so the `catch`
fallback of lines 203-213 is unreachable; `lexicalFallback` below models that
dead branch for comparison with the spec. -/
def handleSearch (cos : List ℚ → List ℚ → ℚ) (embedBackend : CallOutcome (List ℚ))
    (s : AppSession) : AppSession :=
  if trimStr s.searchQuery = "" then
    { s with filteredClips := sortClips s.clips s.sortOrder }
  else
    let queryEmbedding := generateEmbedding embedBackend
    let finalClips :=
      searchRanked cos queryEmbedding s.searchQuery s.clips s.transcript s.sortOrder
    { s with filteredClips := finalClips.map ScoredClip.clip }

/-- The `catch` branch of `handleSearch` (src/App.tsx:206-210): lexical-only
filtering on the transcript stub. -/
def lexicalFallback (s : AppSession) : List VideoClip :=
  let queryLower := toLowerStr s.searchQuery
  sortClips (s.clips.filter fun clip => stubMatches queryLower clip) s.sortOrder

/-! ## Pipeline (src/App.tsx:68-135, `handleFileSelect`) -/

/-- The backend outcomes one pipeline run can observe. -/
structure PipelineEnv where
  /-- `extractFramesFromVideo`: captured timestamps, or `none` if it rejected. -/
  framesOutcome : Option (List ℚ)
  /-- `video.duration` of the selected file. -/
  duration : ℚ
  /-- `Date.now()` at clip creation. -/
  now : ℕ
  /-- The visual-analysis Gemini call. -/
  analyzeBackend : CallOutcome (List RawClip)
  /-- `extractAudio`: base64 audio, or `none` if ffmpeg threw. -/
  audioOutcome : Option String
  /-- The transcription Gemini call, per audio payload. -/
  transcribeBackend : String → CallOutcome (List TranscriptSegment)
  /-- The embedding Gemini call, per embedded text. -/
  embedBackend : String → CallOutcome (List ℚ)

/-- The descriptor string embedded per clip (src/App.tsx:117):
`${title} ${summary} ${tags.join(' ')} ${reasoning}`. -/
def textToEmbed (clip : VideoClip) : String :=
  clip.title ++ " " ++ clip.summary ++ " " ++
    String.intercalate " " clip.tags ++ " " ++ clip.reasoning

/-- Step 4 of the pipeline (src/App.tsx:116-120): every clip gets an
`embedding` field, the backend values or `[]`, never aborting (the mapped
`generateEmbedding` never rejects, so neither does `Promise.all`). -/
def embedClips (embedBackend : String → CallOutcome (List ℚ))
    (generatedClips : List VideoClip) : List VideoClip :=
  generatedClips.map fun clip =>
    { clip with embedding := some (generateEmbedding (embedBackend (textToEmbed clip))) }

/-- `handleFileSelect` (src/App.tsx:68-135) as a session transformer: reset
the session, then frames → visual analysis → transcription (non-fatal, inner
`try`) → embeddings → publish sorted clips and become `READY`; any uncaught
throw lands in the outer `catch`, which only sets `ERROR`. -/
def handleFileSelect (env : PipelineEnv) (s : AppSession) : AppSession :=
  let s0 := { s with appState := AppState.PROCESSING, clips := [],
                     activeClip := none, transcript := [] }
  match env.framesOutcome with
  | none => { s0 with appState := AppState.ERROR }
  | some _frames =>
    let s1 := { s0 with appState := AppState.ANALYZING }
    match analyzeVideoFrames env.analyzeBackend env.duration env.now with
    | none => { s1 with appState := AppState.ERROR }
    | some generatedClips =>
      let s2 :=
        match env.audioOutcome with
        | none => s1
        | some audio =>
            { s1 with transcript := generateTranscript (env.transcribeBackend audio) }
      let clipsWithEmbeddings := embedClips env.embedBackend generatedClips
      let sortedClips := sortClips clipsWithEmbeddings s.sortOrder
      { s2 with clips := sortedClips
                filteredClips := sortedClips
                activeClip := sortedClips.head?
                appState := AppState.READY }

/-! ## Helper lemmas -/

theorem captureFrames_length_le (d fi : ℚ) :
    ∀ (fuel : ℕ) (t : ℚ), (captureFrames d fi t fuel).length ≤ fuel := by
  intro fuel
  induction fuel with
  | zero => intro t; simp [captureFrames]
  | succ n ih =>
      intro t
      rw [captureFrames]
      split
      · simpa using ih (t + fi)
      · simp

theorem captureFrames_mem_bounds (d fi : ℚ) (hfi : 0 ≤ fi) :
    ∀ (fuel : ℕ) (t x : ℚ), x ∈ captureFrames d fi t fuel → t ≤ x ∧ x < d := by
  intro fuel
  induction fuel with
  | zero => intro t x hx; simp [captureFrames] at hx
  | succ n ih =>
      intro t x hx
      rw [captureFrames] at hx
      split at hx
      · rcases List.mem_cons.1 hx with h | h
        · subst h; exact ⟨le_refl x, by assumption⟩
        · have := ih (t + fi) x h
          exact ⟨le_trans (le_add_of_nonneg_right hfi) this.1, this.2⟩
      · simp at hx

theorem captureFrames_sorted (d fi : ℚ) (hfi : 0 < fi) :
    ∀ (fuel : ℕ) (t : ℚ), (captureFrames d fi t fuel).Sorted (· < ·) := by
  intro fuel
  induction fuel with
  | zero => intro t; simp [captureFrames]
  | succ n ih =>
      intro t
      rw [captureFrames]
      split
      · refine List.sorted_cons.2 ⟨?_, ih (t + fi)⟩
        intro x hx
        have := (captureFrames_mem_bounds d fi (le_of_lt hfi) n (t + fi) x hx).1
        linarith
      · simp

/-- Stability of `orderedInsert` for elements the key predicate rejects. -/
theorem filter_orderedInsert_neg {α : Type} (r : α → α → Prop) [DecidableRel r]
    (p : α → Bool) (a : α) (hp : p a = false) :
    ∀ l : List α, (List.orderedInsert r a l).filter p = l.filter p := by
  intro l
  induction l with
  | nil => simp [hp]
  | cons b l ih =>
      rw [List.orderedInsert]
      split
      · simp [List.filter_cons, hp]
      · by_cases hb : p b = true <;> simp [List.filter_cons, hb, ih]

/-- Stability of `orderedInsert` for elements the key predicate keeps, when
the relation holds from `a` to every kept element and fails only toward
rejected ones. -/
theorem filter_orderedInsert_pos {α : Type} (r : α → α → Prop) [DecidableRel r]
    (p : α → Bool) (a : α) (hp : p a = true)
    (hfail : ∀ b, ¬r a b → p b = false) :
    ∀ l : List α, (List.orderedInsert r a l).filter p = a :: l.filter p := by
  intro l
  induction l with
  | nil => simp [hp]
  | cons b l ih =>
      rw [List.orderedInsert]
      split
      · simp [List.filter_cons, hp]
      · have hb : p b = false := hfail b (by assumption)
        simp [List.filter_cons, hb, ih]

/-- Stability of `insertionSort`: filtering by an equivalence class of the
sort key is unchanged by sorting. -/
theorem filter_insertionSort {α : Type} (r : α → α → Prop) [DecidableRel r]
    (p : α → Bool) (hfail : ∀ a b, p a = true → ¬r a b → p b = false) :
    ∀ l : List α, (List.insertionSort r l).filter p = l.filter p := by
  intro l
  induction l with
  | nil => rfl
  | cons a l ih =>
      rw [List.insertionSort]
      rcases hpa : p a with hf | ht
      · rw [filter_orderedInsert_neg r p a hpa, ih, List.filter_cons, hpa]
        simp
      · rw [filter_orderedInsert_pos r p a hpa (hfail a · hpa), ih,
            List.filter_cons, hpa]
        simp

/-- Membership is invariant under `sortClipsBy`. -/
theorem mem_sortClipsBy {α : Type} (f g : α → ℚ) (l : List α) (order : SortOrder)
    (x : α) : x ∈ sortClipsBy f g l order ↔ x ∈ l := by
  cases order <;> simp [sortClipsBy]

/-- `sortClipsBy` permutes its input. -/
theorem sortClipsBy_perm {α : Type} (f g : α → ℚ) (l : List α) (order : SortOrder) :
    (sortClipsBy f g l order).Perm l := by
  cases order <;> exact List.perm_insertionSort _ _

/-- Sorting scored clips and then projecting to the clips is projecting and
then sorting the clips: the comparators only read clip fields. -/
theorem map_clip_sortScored (l : List ScoredClip) (order : SortOrder) :
    (sortScored l order).map ScoredClip.clip =
      sortClips (l.map ScoredClip.clip) order := by
  cases order <;>
    exact List.map_insertionSort _ _ ScoredClip.clip l (by intro a _ b _; rfl)

/-- Steps 1-2 of the search are the pointwise map `scoreClip`. -/
theorem boostStage_baseStage_eq_map (cos : List ℚ → List ℚ → ℚ)
    (queryEmbedding : List ℚ) (queryLower : String)
    (transcript : List TranscriptSegment) (clips : List VideoClip) :
    boostStage queryLower transcript (baseStage cos queryEmbedding clips) =
      clips.map (scoreClip cos queryEmbedding queryLower transcript) := by
  rw [boostStage, baseStage, List.map_map]
  rfl

/-- The boolean `any` over the filtered transcript is the claim's
existential form. -/
theorem any_matching_iff (queryLower : String)
    (transcript : List TranscriptSegment) (c : VideoClip) :
    (matchingTranscriptSegments queryLower transcript).any (segOverlaps c) = true ↔
      ∃ seg ∈ transcript, segMatches queryLower seg = true ∧
        segOverlaps c seg = true := by
  rw [matchingTranscriptSegments, List.any_eq_true]
  constructor
  · rintro ⟨seg, hseg, hov⟩
    exact ⟨seg, (List.mem_filter.1 hseg).1, (List.mem_filter.1 hseg).2, hov⟩
  · rintro ⟨seg, hseg, hm, hov⟩
    exact ⟨seg, List.mem_filter.2 ⟨hseg, hm⟩, hov⟩

/-! ## Claim C2: the frame-sampling schedule -/

/-- C2: for every `videoDuration > 0` and `maxFrames > 0`, the timestamp
schedule of `extractFramesFromVideo` (any base interval) has at most
`maxFrames` entries, every entry lies in `[0, videoDuration)`, the entries are
strictly increasing, and the first entry is `0`. -/
theorem extractFramesFromVideo_schedule (videoDuration intervalSeconds : ℚ)
    (maxFrames : ℕ) (hd : 0 < videoDuration) (hm : 0 < maxFrames) :
    (extractFramesFromVideo videoDuration intervalSeconds maxFrames).length ≤ maxFrames ∧
    (∀ t ∈ extractFramesFromVideo videoDuration intervalSeconds maxFrames,
      0 ≤ t ∧ t < videoDuration) ∧
    (extractFramesFromVideo videoDuration intervalSeconds maxFrames).Sorted (· < ·) ∧
    (extractFramesFromVideo videoDuration intervalSeconds maxFrames).head? = some 0 := by
  have hfi : 0 < max intervalSeconds (videoDuration / (maxFrames : ℚ)) := by
    have hq : 0 < videoDuration / (maxFrames : ℚ) :=
      div_pos hd (by exact_mod_cast hm)
    exact lt_max_of_lt_right hq
  simp only [extractFramesFromVideo]
  refine ⟨captureFrames_length_le _ _ maxFrames 0, ?_, captureFrames_sorted _ _ hfi maxFrames 0, ?_⟩
  · intro t ht
    exact captureFrames_mem_bounds _ _ (le_of_lt hfi) maxFrames 0 t ht
  · obtain ⟨n, rfl⟩ := Nat.exists_eq_succ_of_ne_zero (Nat.pos_iff_ne_zero.1 hm)
    rw [captureFrames, if_pos hd]
    rfl

/-- Witness for the C2 theorem at the pipeline's call-site values
(src/App.tsx:88: interval 4, budget 45) on a 10-second video. -/
theorem extractFramesFromVideo_schedule_witness :
    (0:ℚ) < 10 ∧ 0 < 45 ∧
      ((extractFramesFromVideo 10 4 45).length ≤ 45 ∧
        (∀ t ∈ extractFramesFromVideo 10 4 45, 0 ≤ t ∧ t < 10) ∧
        (extractFramesFromVideo 10 4 45).Sorted (· < ·) ∧
        (extractFramesFromVideo 10 4 45).head? = some 0) :=
  ⟨by norm_num, by norm_num,
    extractFramesFromVideo_schedule 10 4 45 (by norm_num) (by norm_num)⟩

/-! ## Claim C8: the two sort orders -/

/-- First example clip of the `[90, 40, 90]` stability scenario. -/
def c8clip0 : VideoClip :=
  { id := "c8-0", startTime := 0, endTime := 1, title := "a", summary := "",
    viralityScore := 90, reasoning := "", tags := [], transcriptStub := "",
    embedding := none }

/-- Second example clip (`viralityScore = 40`). -/
def c8clip1 : VideoClip :=
  { id := "c8-1", startTime := 2, endTime := 3, title := "b", summary := "",
    viralityScore := 40, reasoning := "", tags := [], transcriptStub := "",
    embedding := none }

/-- Third example clip (`viralityScore = 90` again). -/
def c8clip2 : VideoClip :=
  { id := "c8-2", startTime := 4, endTime := 5, title := "c", summary := "",
    viralityScore := 90, reasoning := "", tags := [], transcriptStub := "",
    embedding := none }

/-- C8: both comparison relations of `sortClips` are total; `sortClips`
sorts chronologically ascending by `startTime` and by virality descending by
`viralityScore`; it permutes its input; it is stable (elements with an equal
sort key keep their relative order: filtering by any key value commutes with
sorting); and the `[90, 40, 90]` example sorts by virality to
`[clip0, clip2, clip1]`. -/
theorem sortClips_total_stable :
    (∀ a b : VideoClip,
      b.viralityScore ≤ a.viralityScore ∨ a.viralityScore ≤ b.viralityScore) ∧
    (∀ a b : VideoClip, a.startTime ≤ b.startTime ∨ b.startTime ≤ a.startTime) ∧
    (∀ l : List VideoClip,
      (sortClips l SortOrder.viral).Sorted fun a b =>
        b.viralityScore ≤ a.viralityScore) ∧
    (∀ l : List VideoClip,
      (sortClips l SortOrder.time).Sorted fun a b => a.startTime ≤ b.startTime) ∧
    (∀ (l : List VideoClip) (order : SortOrder), (sortClips l order).Perm l) ∧
    (∀ (l : List VideoClip) (k : ℚ),
      (sortClips l SortOrder.viral).filter (fun c => decide (c.viralityScore = k)) =
        l.filter fun c => decide (c.viralityScore = k)) ∧
    (∀ (l : List VideoClip) (k : ℚ),
      (sortClips l SortOrder.time).filter (fun c => decide (c.startTime = k)) =
        l.filter fun c => decide (c.startTime = k)) ∧
    sortClips [c8clip0, c8clip1, c8clip2] SortOrder.viral =
      [c8clip0, c8clip2, c8clip1] := by
  refine ⟨fun a b => le_total _ _, fun a b => le_total _ _, ?_, ?_,
    fun l order => sortClipsBy_perm _ _ l order, ?_, ?_, by decide⟩
  · intro l
    haveI : IsTotal VideoClip fun a b => b.viralityScore ≤ a.viralityScore :=
      ⟨fun a b => le_total _ _⟩
    haveI : IsTrans VideoClip fun a b => b.viralityScore ≤ a.viralityScore :=
      ⟨fun a b c hab hbc => le_trans hbc hab⟩
    exact List.sorted_insertionSort _ l
  · intro l
    haveI : IsTotal VideoClip fun a b => a.startTime ≤ b.startTime :=
      ⟨fun a b => le_total _ _⟩
    haveI : IsTrans VideoClip fun a b => a.startTime ≤ b.startTime :=
      ⟨fun a b c hab hbc => le_trans hab hbc⟩
    exact List.sorted_insertionSort _ l
  · intro l k
    apply filter_insertionSort
    intro a b hpa hr
    simp only [decide_eq_true_eq] at hpa
    simp only [decide_eq_false_iff_not]
    intro hbk
    exact hr (le_of_eq (by rw [hpa, hbk]))
  · intro l k
    apply filter_insertionSort
    intro a b hpa hr
    simp only [decide_eq_true_eq] at hpa
    simp only [decide_eq_false_iff_not]
    intro hbk
    exact hr (le_of_eq (by rw [hpa, hbk]))

/-! ## Claim C1: clamping without exclusion -/

/-- C1 (amended): `analyzeVideoFrames` clamps every raw candidate
(`startTime` to `≥ 0`, `endTime` to `≤ videoDuration`) and attaches ids, but
excludes nothing: the published list has exactly one clip per raw candidate,
in order — in particular a candidate whose clamped `startTime` equals (or
exceeds) its clamped `endTime` is kept. -/
theorem analyzeVideoFrames_clamps_and_keeps_all (raw : List RawClip)
    (videoDuration : ℚ) (now : ℕ) :
    ∃ out : List VideoClip,
      analyzeVideoFrames (some (some raw)) videoDuration now = some out ∧
      out.length = raw.length ∧
      ∀ i : ℕ, out[i]? = (raw[i]?).map (clampRawClip videoDuration now i) := by
  refine ⟨_, rfl, by simp, ?_⟩
  intro i
  simp only [List.getElem?_map, List.getElem?_enum]
  cases raw[i]? <;> rfl

/-- The raw candidate with `startTime = endTime = 5`. -/
def c1raw : RawClip :=
  { startTime := 5, endTime := 5, title := "t", summary := "s",
    viralityScore := 50, reasoning := "r", tags := [], transcriptStub := "x" }

/-- C1 counterexample: on a 10-second video a candidate with
`startTime == endTime` after clamping (both 5) still appears among the clips
returned by `analyzeVideoFrames` — nothing drops it. -/
theorem analyzeVideoFrames_keeps_degenerate_clip :
    ∃ c : VideoClip,
      analyzeVideoFrames (some (some [c1raw])) 10 0 = some [c] ∧
      c.startTime = c.endTime := by
  refine ⟨clampRawClip 10 0 0 c1raw, rfl, by decide⟩

/-! ## Claim C9: search does not mutate the session store -/

/-- C9: evaluating a search never mutates the stored session data: the clip
list (hence every clip in it, every field including `embedding`), the
transcript, the active clip, the query and the sort order are all unchanged;
only the derived `filteredClips` view is rewritten, and since `VideoClip` has
no `score` field the transient ranking score cannot be stored onto any clip
of that sequence. -/
theorem handleSearch_preserves_session (cos : List ℚ → List ℚ → ℚ)
    (embedBackend : CallOutcome (List ℚ)) (s : AppSession) :
    (handleSearch cos embedBackend s).clips = s.clips ∧
    (handleSearch cos embedBackend s).transcript = s.transcript ∧
    (handleSearch cos embedBackend s).activeClip = s.activeClip ∧
    (handleSearch cos embedBackend s).searchQuery = s.searchQuery ∧
    (handleSearch cos embedBackend s).sortOrder = s.sortOrder := by
  rw [handleSearch]
  split <;> exact ⟨rfl, rfl, rfl, rfl, rfl⟩

/-! ## Claim C3: the retention rule -/

/-- C3: for a non-empty query, search retains a scored clip exactly when its
final score exceeds the fixed `0.3` threshold or its `transcriptStub`
contains the query case-insensitively; in particular a clip whose stub
contains the query is retained (with final score `0 + 0.5`) even when its
cosine base score is `0` — as it is when the embedding is absent, and, by the
spec of `cosineSimilarity`, when it is the zero vector. -/
theorem searchRanked_retention (cos : List ℚ → List ℚ → ℚ)
    (queryEmbedding : List ℚ) (searchQuery : String) (clips : List VideoClip)
    (transcript : List TranscriptSegment) (order : SortOrder)
    (hq : trimStr searchQuery ≠ "") :
    (∀ sc : ScoredClip,
      sc ∈ searchRanked cos queryEmbedding searchQuery clips transcript order ↔
        (∃ c ∈ clips,
          sc = scoreClip cos queryEmbedding (toLowerStr searchQuery) transcript c) ∧
        (threshold < sc.score ∨
          stubMatches (toLowerStr searchQuery) sc.clip = true)) ∧
    (∀ c ∈ clips, cosBase cos queryEmbedding c = 0 →
      stubMatches (toLowerStr searchQuery) c = true →
      (⟨c, 1/2⟩ : ScoredClip) ∈
        searchRanked cos queryEmbedding searchQuery clips transcript order) := by
  have hmem : ∀ sc : ScoredClip,
      sc ∈ searchRanked cos queryEmbedding searchQuery clips transcript order ↔
        (∃ c ∈ clips,
          sc = scoreClip cos queryEmbedding (toLowerStr searchQuery) transcript c) ∧
        (threshold < sc.score ∨
          stubMatches (toLowerStr searchQuery) sc.clip = true) := by
    intro sc
    rw [searchRanked]
    rw [show (sortScored
        (filterStage (toLowerStr searchQuery)
          (boostStage (toLowerStr searchQuery) transcript
            (baseStage cos queryEmbedding clips))) order) =
      sortClipsBy (fun sc => sc.clip.startTime) (fun sc => sc.clip.viralityScore)
        (filterStage (toLowerStr searchQuery)
          (boostStage (toLowerStr searchQuery) transcript
            (baseStage cos queryEmbedding clips))) order from rfl]
    rw [mem_sortClipsBy]
    rw [filterStage, List.mem_filter,
      boostStage_baseStage_eq_map cos queryEmbedding (toLowerStr searchQuery)
        transcript clips, List.mem_map]
    constructor
    · rintro ⟨⟨c, hc, hsc⟩, hpred⟩
      refine ⟨⟨c, hc, hsc.symm⟩, ?_⟩
      simpa [gt_iff_lt] using hpred
    · rintro ⟨⟨c, hc, hsc⟩, hpred⟩
      refine ⟨⟨c, hc, hsc.symm⟩, ?_⟩
      simpa [gt_iff_lt] using hpred
  refine ⟨hmem, ?_⟩
  intro c hc hbase hstub
  have hscore : scoreClip cos queryEmbedding (toLowerStr searchQuery) transcript c =
      (⟨c, 1/2⟩ : ScoredClip) := by
    rw [scoreClip, hbase]
    rw [if_pos (by rw [hstub, Bool.or_true])]
    rw [zero_add]
  rw [hmem]
  constructor
  · exact ⟨c, hc, hscore.symm⟩
  · right
    simpa using hstub

/-! ## Claim C4: the 0.5 boost -/

/-- C4: for a non-empty query, steps 1-2 of the search give each clip the
score `base + 0.5` — the boost added exactly once — precisely when some
transcript segment whose text contains the query overlaps the clip
temporally (segment start inside the clip span, segment end inside it, or the
clip span inside the segment span) or the clip's own stub contains the query;
otherwise the base score is unchanged (`+ 0`). -/
theorem boostStage_adds_half_iff (cos : List ℚ → List ℚ → ℚ)
    (queryEmbedding : List ℚ) (searchQuery : String)
    (transcript : List TranscriptSegment) (clips : List VideoClip)
    (hq : trimStr searchQuery ≠ "") :
    boostStage (toLowerStr searchQuery) transcript
        (baseStage cos queryEmbedding clips) =
      clips.map fun c =>
        ⟨c, cosBase cos queryEmbedding c +
          if (∃ seg ∈ transcript,
                segMatches (toLowerStr searchQuery) seg = true ∧
                segOverlaps c seg = true) ∨
              stubMatches (toLowerStr searchQuery) c = true
          then 1/2 else 0⟩ := by
  rw [boostStage_baseStage_eq_map]
  apply List.map_congr_left
  intro c _
  rw [scoreClip]
  by_cases hcond :
      ((matchingTranscriptSegments (toLowerStr searchQuery) transcript).any
          (segOverlaps c) ||
        stubMatches (toLowerStr searchQuery) c) = true
  · rw [if_pos hcond, if_pos]
    rcases Bool.or_eq_true_iff.1 hcond with h | h
    · exact Or.inl ((any_matching_iff _ _ _).1 h)
    · exact Or.inr h
  · rw [if_neg hcond, if_neg, add_zero]
    intro hcontra
    apply hcond
    rcases hcontra with h | h
    · exact Bool.or_eq_true_iff.2 (Or.inl ((any_matching_iff _ _ _).2 h))
    · exact Bool.or_eq_true_iff.2 (Or.inr h)

/-! ## Claims C5/C6/C10: pipeline failure policy -/

/-- C5: if the transcription step fails — `extractAudio` throws or the
transcription backend call throws — the run still completes: the session is
`READY` (not `ERROR`), its transcript is empty, and the clips are published
exactly as the successful embedding stage produced them (and displayed
unfiltered). -/
theorem pipeline_transcription_failure_nonfatal (env : PipelineEnv)
    (s : AppSession) (frames : List ℚ) (generated : List VideoClip)
    (hf : env.framesOutcome = some frames)
    (ha : analyzeVideoFrames env.analyzeBackend env.duration env.now = some generated)
    (ht : env.audioOutcome = none ∨
      ∃ audio, env.audioOutcome = some audio ∧ env.transcribeBackend audio = none) :
    (handleFileSelect env s).appState = AppState.READY ∧
    (handleFileSelect env s).transcript = [] ∧
    (handleFileSelect env s).clips =
      sortClips (embedClips env.embedBackend generated) s.sortOrder ∧
    (handleFileSelect env s).filteredClips = (handleFileSelect env s).clips := by
  rcases ht with hnone | ⟨audio, haud, htb⟩
  · simp [handleFileSelect, hf, ha, hnone]
  · simp [handleFileSelect, hf, ha, haud, htb, generateTranscript]

/-- C6: if the visual-analysis call throws, the run aborts: the session ends
in `ERROR`, and the clip set, active clip and transcript keep the empty reset
values from the start of the run — no partial results. -/
theorem pipeline_visual_failure_fatal (env : PipelineEnv) (s : AppSession)
    (frames : List ℚ)
    (hf : env.framesOutcome = some frames)
    (ha : env.analyzeBackend = none) :
    (handleFileSelect env s).appState = AppState.ERROR ∧
    (handleFileSelect env s).clips = [] ∧
    (handleFileSelect env s).activeClip = none ∧
    (handleFileSelect env s).transcript = [] := by
  simp [handleFileSelect, hf, ha, analyzeVideoFrames]

/-- C10: `generateEmbedding` is total across backend outcomes — the backend's
values on success, the empty vector when the call throws or carries no values,
never an exception.  Consequently, once frames and visual analysis succeed,
the pipeline always reaches `READY` whatever the per-clip embedding outcomes:
every generated clip is published with an `embedding` field present (possibly
`[]`), so one failed embedding call can abort neither the pipeline nor the
`Promise.all` fan-in. -/
theorem generateEmbedding_total_isolated (env : PipelineEnv) (s : AppSession)
    (frames : List ℚ) (generated : List VideoClip)
    (hf : env.framesOutcome = some frames)
    (ha : analyzeVideoFrames env.analyzeBackend env.duration env.now = some generated) :
    (∀ values, generateEmbedding (some (some values)) = values) ∧
    generateEmbedding (some none) = [] ∧
    generateEmbedding none = [] ∧
    (handleFileSelect env s).appState = AppState.READY ∧
    (handleFileSelect env s).clips =
      sortClips (embedClips env.embedBackend generated) s.sortOrder ∧
    (∀ c ∈ (handleFileSelect env s).clips, c.embedding ≠ none) := by
  have hclips : (handleFileSelect env s).clips =
      sortClips (embedClips env.embedBackend generated) s.sortOrder := by
    cases haud : env.audioOutcome <;> simp [handleFileSelect, hf, ha, haud]
  have hready : (handleFileSelect env s).appState = AppState.READY := by
    cases haud : env.audioOutcome <;> simp [handleFileSelect, hf, ha, haud]
  refine ⟨fun values => rfl, rfl, rfl, hready, hclips, ?_⟩
  intro c hc
  rw [hclips, sortClips, mem_sortClipsBy, embedClips] at hc
  rcases List.mem_map.1 hc with ⟨x, _, hxc⟩
  rw [← hxc]
  simp

/-! ## Claim C7: search under query-embedding failure -/

/-- The scored object keeps its clip component in both boost branches. -/
theorem scoreClip_clip (cos : List ℚ → List ℚ → ℚ) (queryEmbedding : List ℚ)
    (queryLower : String) (transcript : List TranscriptSegment)
    (c : VideoClip) :
    (scoreClip cos queryEmbedding queryLower transcript c).clip = c := by
  rw [scoreClip]
  split <;> rfl

/-- With a zero base score, `scoreClip` is `0.5` on a boost match and `0`
otherwise. -/
theorem scoreClip_zero_base (cos : List ℚ → List ℚ → ℚ) (queryEmbedding : List ℚ)
    (queryLower : String) (transcript : List TranscriptSegment) (c : VideoClip)
    (hbase : cosBase cos queryEmbedding c = 0) :
    scoreClip cos queryEmbedding queryLower transcript c =
      if (matchingTranscriptSegments queryLower transcript).any (segOverlaps c) ||
          stubMatches queryLower c
      then ⟨c, 1/2⟩ else ⟨c, 0⟩ := by
  simp only [scoreClip, hbase, zero_add]

/-- C7 (amended): when the query-embedding backend call fails,
`generateEmbedding` absorbs the failure and returns the empty vector, so the
search proceeds on its normal path with query embedding `[]` and never
surfaces an error; every cosine base score is `0` (spec of
`cosineSimilarity` on the empty vector), and the retained set is exactly the
clips with a transcript-overlap match or a stub match — not only the stub
matches — sorted by the active order. -/
theorem handleSearch_embedFailure_overlap_or_stub (cos : List ℚ → List ℚ → ℚ)
    (embedBackend : CallOutcome (List ℚ)) (s : AppSession)
    (hq : ¬trimStr s.searchQuery = "")
    (hqe : generateEmbedding embedBackend = [])
    (hcos : ∀ e, cos [] e = 0) :
    (handleSearch cos embedBackend s).filteredClips =
      sortClips
        (s.clips.filter fun c =>
          (matchingTranscriptSegments (toLowerStr s.searchQuery) s.transcript).any
              (segOverlaps c) ||
            stubMatches (toLowerStr s.searchQuery) c)
        s.sortOrder := by
  have hbase : ∀ c : VideoClip, cosBase cos [] c = 0 := by
    intro c
    rw [cosBase]
    cases c.embedding with
    | none => rfl
    | some e => exact hcos e
  have hhalf : decide (((1:ℚ)/2) > threshold) = true := by
    rw [decide_eq_true_eq, threshold]
    norm_num
  have hzero : decide (((0:ℚ)) > threshold) = false := by
    rw [decide_eq_false_iff_not, threshold]
    norm_num
  simp only [handleSearch, if_neg hq, hqe, searchRanked]
  rw [boostStage_baseStage_eq_map, filterStage, List.filter_map]
  have hfc : s.clips.filter
      ((fun c => decide (c.score > threshold) ||
          stubMatches (toLowerStr s.searchQuery) c.clip) ∘
        scoreClip cos [] (toLowerStr s.searchQuery) s.transcript) =
      s.clips.filter fun c =>
        (matchingTranscriptSegments (toLowerStr s.searchQuery) s.transcript).any
            (segOverlaps c) ||
          stubMatches (toLowerStr s.searchQuery) c := by
    apply List.filter_congr
    intro c _
    simp only [Function.comp_apply,
      scoreClip_zero_base cos [] (toLowerStr s.searchQuery) s.transcript c (hbase c)]
    rcases hcond : ((matchingTranscriptSegments (toLowerStr s.searchQuery)
        s.transcript).any (segOverlaps c) ||
        stubMatches (toLowerStr s.searchQuery) c) with hf | ht
    · have hstub : stubMatches (toLowerStr s.searchQuery) c = false :=
        (Bool.or_eq_false_iff.1 hcond).2
      simp [hzero, hstub]
    · simp only [if_pos rfl]
      simp
      left
      rw [threshold]
      norm_num
  rw [hfc, map_clip_sortScored, List.map_map]
  congr 1
  have hid : ∀ c ∈ s.clips.filter fun c =>
      (matchingTranscriptSegments (toLowerStr s.searchQuery) s.transcript).any
          (segOverlaps c) ||
        stubMatches (toLowerStr s.searchQuery) c,
      (ScoredClip.clip ∘ scoreClip cos [] (toLowerStr s.searchQuery) s.transcript) c =
        id c := by
    intro c _
    exact scoreClip_clip cos [] (toLowerStr s.searchQuery) s.transcript c
  rw [List.map_congr_left hid, List.map_id]

/-! ## Concrete scenarios

Witnesses instantiate the claim theorems on concrete inputs and evaluate the
model there.  `Rat.add`/`mul`/`sub`/`inv` are `@[irreducible]` upstream, which
only blocks `decide`-style evaluation, so they are made semireducible locally
for these closed computations. -/

section ConcreteEvaluation

attribute [local semireducible] Rat.add Rat.mul Rat.sub Rat.inv

/-- The common empty session the pipeline scenarios start from. -/
def emptySession : AppSession :=
  { appState := AppState.IDLE, clips := [], activeClip := none, transcript := [],
    filteredClips := [], searchQuery := "", sortOrder := SortOrder.time }

/-- Clip A of the spec's lexical-override example: stub "exact phrase here",
zero embedding. -/
def c3clipA : VideoClip :=
  { id := "A", startTime := 0, endTime := 4, title := "a", summary := "",
    viralityScore := 10, reasoning := "", tags := [],
    transcriptStub := "exact phrase here", embedding := some [0, 0] }

/-- Witness for the C3 theorem: searching "exact phrase" over clip A (zero
embedding, cosine base score 0) retains A, with final score `0.5`. -/
theorem searchRanked_retention_witness :
    trimStr "exact phrase" ≠ "" ∧
    (⟨c3clipA, 1/2⟩ : ScoredClip) ∈
      searchRanked (fun _ _ => 0) [] "exact phrase" [c3clipA] [] SortOrder.time := by
  refine ⟨by decide, ?_⟩
  exact (searchRanked_retention (fun _ _ => 0) [] "exact phrase" [c3clipA] []
    SortOrder.time (by decide)).2 c3clipA (List.mem_singleton.2 rfl) rfl (by decide)

/-- The transcript segment `{start 10, end 20, text "launch"}` of the spec's
boost example. -/
def c4seg : TranscriptSegment := { startTime := 10, endTime := 20, text := "launch" }

/-- A clip spanning `[5, 15]` with no embedding and an unrelated stub. -/
def c4clip : VideoClip :=
  { id := "c4", startTime := 5, endTime := 15, title := "t", summary := "",
    viralityScore := 60, reasoning := "", tags := [], transcriptStub := "quiet",
    embedding := none }

/-- Witness for the C4 theorem: searching "launch" boosts the `[5,15]` clip
overlapping the matching `[10,20]` segment by exactly `0.5`. -/
theorem boostStage_adds_half_iff_witness :
    trimStr "launch" ≠ "" ∧
    boostStage (toLowerStr "launch") [c4seg]
        (baseStage (fun _ _ => 0) [] [c4clip]) = [⟨c4clip, 1/2⟩] := by
  refine ⟨by decide, ?_⟩
  rw [boostStage_adds_half_iff (fun _ _ => 0) [] "launch" [c4seg] [c4clip] (by decide)]
  decide

/-- Raw candidate for the C5 scenario. -/
def c5raw : RawClip :=
  { startTime := 1, endTime := 4, title := "r", summary := "",
    viralityScore := 70, reasoning := "", tags := [], transcriptStub := "hello" }

/-- C5 scenario: frames and visual analysis succeed, the transcription
backend throws, embeddings succeed. -/
def c5env : PipelineEnv :=
  { framesOutcome := some [0, 4]
    duration := 10
    now := 0
    analyzeBackend := some (some [c5raw])
    audioOutcome := some "audio"
    transcribeBackend := fun _ => none
    embedBackend := fun _ => some (some [1, 2]) }

/-- Witness for the C5 theorem on the concrete scenario. -/
theorem pipeline_transcription_failure_nonfatal_witness :
    c5env.framesOutcome = some [0, 4] ∧
    analyzeVideoFrames c5env.analyzeBackend c5env.duration c5env.now =
      some [clampRawClip 10 0 0 c5raw] ∧
    (c5env.audioOutcome = none ∨
      ∃ audio, c5env.audioOutcome = some audio ∧
        c5env.transcribeBackend audio = none) ∧
    ((handleFileSelect c5env emptySession).appState = AppState.READY ∧
      (handleFileSelect c5env emptySession).transcript = [] ∧
      (handleFileSelect c5env emptySession).clips =
        sortClips (embedClips c5env.embedBackend [clampRawClip 10 0 0 c5raw])
          emptySession.sortOrder ∧
      (handleFileSelect c5env emptySession).filteredClips =
        (handleFileSelect c5env emptySession).clips) :=
  ⟨rfl, rfl, Or.inr ⟨"audio", rfl, rfl⟩,
    pipeline_transcription_failure_nonfatal c5env emptySession [0, 4]
      [clampRawClip 10 0 0 c5raw] rfl rfl (Or.inr ⟨"audio", rfl, rfl⟩)⟩

/-- C6 scenario: frames succeed, the visual-analysis backend throws. -/
def c6env : PipelineEnv :=
  { framesOutcome := some [0]
    duration := 10
    now := 0
    analyzeBackend := none
    audioOutcome := none
    transcribeBackend := fun _ => none
    embedBackend := fun _ => none }

/-- Witness for the C6 theorem on the concrete scenario. -/
theorem pipeline_visual_failure_fatal_witness :
    c6env.framesOutcome = some [0] ∧
    c6env.analyzeBackend = none ∧
    ((handleFileSelect c6env emptySession).appState = AppState.ERROR ∧
      (handleFileSelect c6env emptySession).clips = [] ∧
      (handleFileSelect c6env emptySession).activeClip = none ∧
      (handleFileSelect c6env emptySession).transcript = []) :=
  ⟨rfl, rfl, pipeline_visual_failure_fatal c6env emptySession [0] rfl rfl⟩

/-- Clip B of the C7 scenario: spans `[5, 15]`, its stub does not contain the
query, embedding present. -/
def c7clipB : VideoClip :=
  { id := "B", startTime := 5, endTime := 15, title := "b", summary := "",
    viralityScore := 50, reasoning := "", tags := [],
    transcriptStub := "nothing here", embedding := some [1] }

/-- A transcript segment containing the query and overlapping clip B. -/
def c7seg : TranscriptSegment :=
  { startTime := 10, endTime := 20, text := "we launch today" }

/-- The session in which the embedding-failure search of the C7 scenario
runs. -/
def c7session : AppSession :=
  { appState := AppState.READY, clips := [c7clipB], activeClip := none,
    transcript := [c7seg], filteredClips := [], searchQuery := "launch",
    sortOrder := SortOrder.time }

/-- C7 counterexample: the query-embedding backend throws, yet search (which
never surfaces the error) returns clip B although B's `transcriptStub` does
not contain the query — so the result is not "exactly the clips whose
transcriptStub contains the query" (that lexical-only set is empty here). -/
theorem handleSearch_embedFailure_counterexample :
    (handleSearch (fun _ _ => 0) none c7session).filteredClips = [c7clipB] ∧
    stubMatches (toLowerStr "launch") c7clipB = false ∧
    lexicalFallback c7session = [] :=
  ⟨by decide, by decide, by decide⟩

/-- Witness for the amended C7 theorem on the same scenario. -/
theorem handleSearch_embedFailure_overlap_or_stub_witness :
    (¬trimStr c7session.searchQuery = "") ∧
    generateEmbedding none = [] ∧
    (handleSearch (fun _ _ => 0) none c7session).filteredClips =
      sortClips
        (c7session.clips.filter fun c =>
          (matchingTranscriptSegments (toLowerStr c7session.searchQuery)
              c7session.transcript).any (segOverlaps c) ||
            stubMatches (toLowerStr c7session.searchQuery) c)
        c7session.sortOrder :=
  ⟨by decide, rfl,
    handleSearch_embedFailure_overlap_or_stub (fun _ _ => 0) none c7session
      (by decide) rfl (fun e => rfl)⟩

/-- Raw-candidate constructor for the C10 scenario. -/
def c10raw (title : String) (startTime endTime : ℚ) : RawClip :=
  { startTime := startTime, endTime := endTime, title := title, summary := "",
    viralityScore := 50, reasoning := "", tags := [], transcriptStub := "" }

/-- C10 scenario: five candidates; the embedding backend throws exactly on
the third clip's descriptor text. -/
def c10env : PipelineEnv :=
  { framesOutcome := some [0]
    duration := 100
    now := 7
    analyzeBackend := some (some [c10raw "r1" 0 1, c10raw "r2" 1 2,
      c10raw "r3" 2 3, c10raw "r4" 3 4, c10raw "r5" 4 5])
    audioOutcome := some "a"
    transcribeBackend := fun _ => some (some [])
    embedBackend := fun t => if t = "r3   " then none else some (some [1]) }

/-- The five clips visual analysis generates in the C10 scenario. -/
def c10gen : List VideoClip :=
  [clampRawClip 100 7 0 (c10raw "r1" 0 1), clampRawClip 100 7 1 (c10raw "r2" 1 2),
   clampRawClip 100 7 2 (c10raw "r3" 2 3), clampRawClip 100 7 3 (c10raw "r4" 3 4),
   clampRawClip 100 7 4 (c10raw "r5" 4 5)]

/-- Witness for the C10 theorem: with the third embedding call failing, all
five clips are published and `READY` is reached; the third clip carries the
empty embedding, the others the backend's vector. -/
theorem generateEmbedding_total_isolated_witness :
    c10env.framesOutcome = some [0] ∧
    analyzeVideoFrames c10env.analyzeBackend c10env.duration c10env.now =
      some c10gen ∧
    ((∀ values, generateEmbedding (some (some values)) = values) ∧
      generateEmbedding (some none) = [] ∧
      generateEmbedding none = [] ∧
      (handleFileSelect c10env emptySession).appState = AppState.READY ∧
      (handleFileSelect c10env emptySession).clips =
        sortClips (embedClips c10env.embedBackend c10gen) emptySession.sortOrder ∧
      (∀ c ∈ (handleFileSelect c10env emptySession).clips, c.embedding ≠ none)) ∧
    (embedClips c10env.embedBackend c10gen).map VideoClip.embedding =
      [some [1], some [1], some [], some [1], some [1]] :=
  ⟨rfl, rfl,
    generateEmbedding_total_isolated c10env emptySession [0] c10gen rfl rfl,
    by decide⟩

end ConcreteEvaluation
